import Mathlib

/-!
# Verification of prompt-vcs core semantics

A shallow embedding of the prompt-vcs repository's core: the
content-addressed commit store (`src/core/repository.ts`,
`src/commands/commit.ts`, `src/commands/diff.ts`), the concurrent
test runner (`src/core/test-runner.ts`), and the statistical
comparator (`src/core/statistical-analyzer.ts`), together with
theorems settling the specification's claims about them.

File-system state (the `.pvc` directory) is modelled as an explicit
`RepoState` value threaded through the commands.  The object store
keeps parsed objects (JSON serialize/parse is a faithful round trip
for the stored shapes); the SHA-256 digest function is an abstract
parameter `hashF`, since its arithmetic is external to the repository.
-/

namespace PromptVcs

/-- A commit object: `{type:"commit", tree, parent, message, timestamp}`.
The `tree` is the staged mapping path ↦ blob digest in insertion order. -/
structure Commit where
  tree : List (String × String)
  parent : Option String
  message : String
  timestamp : String
  deriving Repr, DecidableEq

/-- A stored object: JSON `{type:"blob", content}` or a commit. -/
inductive StoredObj where
  | blob (content : String)
  | commit (c : Commit)
  deriving Repr, DecidableEq

/-- A staging-index entry `{hash, path}` as kept under `staged[path]`. -/
structure StagedEntry where
  hash : String
  path : String
  deriving Repr, DecidableEq

/-- The `index.json` contents: `{staged: {path: {hash, path}}}`,
as an association list in insertion order. -/
structure IndexFile where
  staged : List (String × StagedEntry)
  deriving Repr, DecidableEq

/-- The on-disk repository state: presence of `.pvc`, the staging
index, the `HEAD` file (absent = `none`) and the object store. -/
structure RepoState where
  initialized : Bool
  index : IndexFile
  head : Option String
  objects : List (String × StoredObj)
  deriving Repr, DecidableEq

/-- `ObjectStorage.readObject` keyed lookup (sharding by the first two
hex characters only splits the key across directories; the key itself
is the full hash, so the store is a plain map). -/
def lookupObject (objs : List (String × StoredObj)) (hash : String) :
    Option StoredObj :=
  (objs.find? (fun e => e.1 = hash)).map (·.2)

/-- `ObjectStorage.writeObject`: `writeFileSync` overwrites an existing
entry, otherwise creates it. -/
def writeObject (objs : List (String × StoredObj)) (hash : String)
    (obj : StoredObj) : List (String × StoredObj) :=
  if objs.any (fun e => e.1 = hash) then
    objs.map (fun e => if e.1 = hash then (hash, obj) else e)
  else
    objs ++ [(hash, obj)]

/-- `String.prototype.trim()`: strip leading and trailing whitespace
(structurally, so that concrete instances evaluate in the kernel). -/
def jsTrim (s : String) : String :=
  ⟨((s.data.dropWhile Char.isWhitespace).reverse.dropWhile
      Char.isWhitespace).reverse⟩

/-- `String.prototype.startsWith(p)` (the digest prefix test),
structurally on the character lists so that concrete instances
evaluate in the kernel. -/
def jsStartsWith (p s : String) : Bool := p.data.isPrefixOf s.data

/-- Minimal JSON string escaping as performed by `JSON.stringify`
(backslash, quote and the common control characters; other characters
are emitted verbatim). -/
def jsonEscape (s : String) : String :=
  s.data.foldl (fun acc c =>
    if c = '\\' then acc ++ "\\\\"
    else if c = '"' then acc ++ "\\\""
    else if c = '\n' then acc ++ "\\n"
    else if c = '\r' then acc ++ "\\r"
    else if c = '\t' then acc ++ "\\t"
    else acc.push c) ""

/-- Render one `"path":"hash"` member of the tree object. -/
def treeEntryJson (e : String × String) : String :=
  "\"" ++ jsonEscape e.1 ++ "\":\"" ++ jsonEscape e.2 ++ "\""

/-- `JSON.stringify(commit)` with the object-literal key order of
`commit.ts`: type, tree, parent, message, timestamp. -/
def serializeCommit (c : Commit) : String :=
  "\x7b\"type\":\"commit\",\"tree\":\x7b" ++
    String.intercalate "," (c.tree.map treeEntryJson) ++
  "\x7d,\"parent\":" ++
    (match c.parent with
     | none => "null"
     | some p => "\"" ++ jsonEscape p ++ "\"") ++
  ",\"message\":\"" ++ jsonEscape c.message ++
  "\",\"timestamp\":\"" ++ jsonEscape c.timestamp ++ "\"\x7d"

/-- `commitCommand(cwd, message)` from `src/commands/commit.ts`,
returning the exit code and the post state.  `hashF` stands for
SHA-256 (`hashContent`), `now` for `new Date().toISOString()`. -/
def commitCommand (hashF : String → String) (now : String)
    (st : RepoState) (message : String) : Int × RepoState :=
  if !st.initialized then (2, st)
  else if jsTrim message = "" then (1, st)
  else
    let stagedFiles := st.index.staged.map Prod.fst
    if stagedFiles.isEmpty then (3, st)
    else
      let tree := st.index.staged.map (fun e => (e.1, e.2.hash))
      let c : Commit :=
        { tree := tree, parent := st.head,
          message := jsTrim message, timestamp := now }
      let commitContent := serializeCommit c
      let commitHash := hashF commitContent
      let st1 := { st with
        objects := writeObject st.objects commitHash (.commit c) }
      let st2 := { st1 with head := some commitHash }
      let st3 := { st2 with index := ⟨[]⟩ }
      (0, st3)

/-- `Repository.getCommit`: read the object, parse, check
`type === 'commit'`; any failure (missing object or wrong type)
yields `null`. -/
def getCommit (st : RepoState) (hash : String) : Option Commit :=
  match lookupObject st.objects hash with
  | some (.commit c) => some c
  | _ => none

/-- `Repository.resolveCommit` from `src/core/repository.ts`:
a token of length ≥ 7 resolves to itself when a commit object is
stored under exactly that token; otherwise `HEAD` resolves to the
current pointer; everything else resolves to `null`. -/
def resolveCommit (st : RepoState) (ref : String) : Option String :=
  if 7 ≤ ref.length ∧ (getCommit st ref).isSome then some ref
  else if ref = "HEAD" then st.head
  else none

/-- The diff command's `getCommit` (`src/commands/diff.ts`): the raw
object is parsed and cast to `Commit` without a type check, so a blob
object yields a commit-shaped value whose absent fields are
`undefined` (modelled as empty/`none`); a missing object throws. -/
def getCommitDiff (st : RepoState) (hash : String) : Option Commit :=
  match lookupObject st.objects hash with
  | some (.commit c) => some c
  | some (.blob _) => some { tree := [], parent := none,
                             message := "", timestamp := "" }
  | none => none

/-- The loop body of the diff command's `resolveCommit`: walk the
parent chain from `cur`, returning the first digest having
`shortHash` as a prefix; a missing object propagates as an error, and
a chain ending without a match throws `Invalid commit`.  `fuel` bounds
the walk (the TypeScript loop would diverge on a cyclic chain). -/
def resolveWalk (st : RepoState) (shortHash : String) :
    String → Nat → Except String String
  | _, 0 => .error "out of fuel"
  | cur, fuel + 1 =>
    if jsStartsWith shortHash cur then .ok cur
    else
      match getCommitDiff st cur with
      | none => .error ("Object not found: " ++ cur)
      | some c =>
        match c.parent with
        | none => .error ("Invalid commit: " ++ shortHash)
        | some p => resolveWalk st shortHash p fuel

/-- The diff command's `resolveCommit` (`src/commands/diff.ts`):
starting from HEAD (error when absent), walk the parent chain and
return the first prefix match. -/
def resolveCommitDiff (st : RepoState) (shortHash : String)
    (fuel : Nat) : Except String String :=
  match st.head with
  | none => .error "No commits found"
  | some h => resolveWalk st shortHash h fuel

/-- The digests of the parent chain starting at `cur`, following
`parent` pointers through the store, bounded by `fuel`. -/
def chainFrom (st : RepoState) : String → Nat → List String
  | _, 0 => []
  | cur, fuel + 1 =>
    cur ::
      (match getCommitDiff st cur with
       | none => []
       | some c =>
         match c.parent with
         | none => []
         | some p => chainFrom st p fuel)

/-- Modelled from the spec's words (§4.2 `resolve(ref)`), for
comparison with `resolveCommit`: "`HEAD` resolves to the current
pointer.  Any other token is treated as a digest or digest-prefix;
resolution walks the parent chain starting at HEAD, testing each
digest for a prefix match, and returns the first match." -/
def specResolveCommit (st : RepoState) (ref : String) (fuel : Nat) :
    Option String :=
  if ref = "HEAD" then st.head
  else
    match st.head with
    | none => none
    | some h => (chainFrom st h fuel).find? (fun d => jsStartsWith ref d)

/-! ## Test runner (`src/core/test-runner.ts`)

The provider (`OpenAIClient.createChatCompletion`) is an external
collaborator, modelled as an oracle giving the outcome and the
duration of the `attempt`-th call for a request; `Date.now()` is
modelled by threading the elapsed milliseconds. -/

/-- One named input scenario (`TestCase` of `src/types/test.ts`). -/
structure TestCase where
  name : String
  inputs : List (String × String)
  expectedOutput : Option String := none
  deriving Repr, DecidableEq

/-- The provider request built by the runner:
`{model, messages:[{role:'user', content}]}`. -/
structure ChatRequest where
  model : String
  content : String
  deriving Repr, DecidableEq

/-- The provider response fields the runner consumes. -/
structure ChatResponse where
  content : String
  promptTokens : Nat
  completionTokens : Nat
  deriving Repr, DecidableEq

/-- `TestCaseResult` of `src/types/test.ts` (cost in USD as a
rational). -/
structure TestCaseResult where
  name : String
  success : Bool
  latency : Nat
  inputTokens : Nat
  outputTokens : Nat
  cost : ℚ
  error : Option String := none
  output : Option String := none
  deriving Repr, DecidableEq

/-- `MetricsSummary` of `src/types/test.ts`. -/
structure MetricsSummary where
  avgLatency : ℚ
  avgInputTokens : ℚ
  avgOutputTokens : ℚ
  avgCost : ℚ
  successRate : ℚ
  totalCount : Nat
  successCount : Nat
  deriving Repr, DecidableEq

/-- `VersionResult` of `src/types/test.ts`. -/
structure VersionResult where
  testCases : List TestCaseResult
  summary : MetricsSummary
  deriving Repr, DecidableEq

/-- Runner configuration (`TestRunnerOptions`, minus the api key the
oracle replaces). -/
structure TestRunnerOptions where
  model : String
  concurrency : Nat
  maxRetries : Nat
  deriving Repr, DecidableEq

/-- `Number(x.toFixed(d))`: round to `d` decimal places. -/
def toFixedQ (d : Nat) (x : ℚ) : ℚ := (round (x * 10 ^ d) : ℤ) / 10 ^ d

/-- Cost per 1K tokens for a model. -/
structure Pricing where
  input : ℚ
  output : ℚ
  deriving Repr, DecidableEq

/-- The `MODEL_PRICING` table of `test-runner.ts`. -/
def MODEL_PRICING : List (String × Pricing) :=
  [("gpt-4", ⟨0.03, 0.06⟩),
   ("gpt-4-0613", ⟨0.03, 0.06⟩),
   ("gpt-4-32k", ⟨0.06, 0.12⟩),
   ("gpt-4o", ⟨0.005, 0.015⟩),
   ("gpt-4o-mini", ⟨0.00015, 0.0006⟩),
   ("gpt-3.5-turbo", ⟨0.0015, 0.002⟩),
   ("gpt-3.5-turbo-0125", ⟨0.0005, 0.0015⟩)]

/-- Exact lookup in `MODEL_PRICING` (`MODEL_PRICING[key]`), with the
`gpt-4` row as the out-of-table default. -/
def pricingOf (key : String) : Pricing :=
  ((MODEL_PRICING.find? (fun e => e.1 = key)).map (·.2)).getD ⟨0.03, 0.06⟩

/-- `getModelPricing`: exact match, then the hard-coded chain of
`startsWith` prefix fallbacks, then the `gpt-4` default. -/
def getModelPricing (model : String) : Pricing :=
  if (MODEL_PRICING.find? (fun e => e.1 = model)).isSome then
    pricingOf model
  else if "gpt-4o-mini".isPrefixOf model then pricingOf "gpt-4o-mini"
  else if "gpt-4o".isPrefixOf model then pricingOf "gpt-4o"
  else if "gpt-4-32k".isPrefixOf model then pricingOf "gpt-4-32k"
  else if "gpt-4".isPrefixOf model then pricingOf "gpt-4"
  else if "gpt-3.5-turbo-0125".isPrefixOf model then
    pricingOf "gpt-3.5-turbo-0125"
  else if "gpt-3.5-turbo".isPrefixOf model then pricingOf "gpt-3.5-turbo"
  else pricingOf "gpt-4"

/-- `calculateCost(model, inputTokens, outputTokens)`, rounded to six
decimal places. -/
def calculateCost (model : String) (inputTokens outputTokens : Nat) : ℚ :=
  let pricing := getModelPricing model
  toFixedQ 6 ((inputTokens / 1000 : ℚ) * pricing.input +
              (outputTokens / 1000 : ℚ) * pricing.output)

/-- A JavaScript `\w` word character: `[A-Za-z0-9_]`. -/
def isWordChar (c : Char) : Bool := c.isAlphanum || c = '_'

/-- The opening brace character. -/
def lbrace : Char := '\x7b'

/-- The closing brace character. -/
def rbrace : Char := '\x7d'

/-- `inputs[key] !== undefined ? inputs[key] : ''`. -/
def lookupInput (inputs : List (String × String)) (key : String) : String :=
  ((inputs.find? (fun e => e.1 = key)).map (·.2)).getD ""

/-- Left-to-right scan implementing
`template.replace(/\x7b\x7b(\w+)\x7d\x7d/g, ...)`: at each position a
brace pair followed by one-or-more word characters and a closing brace
pair is replaced by the input value (empty string when unmatched);
otherwise one character is emitted and scanning resumes at the next
position. -/
def renderAux (inputs : List (String × String)) : List Char → List Char
  | [] => []
  | c₁ :: rest₁ =>
    if c₁ = lbrace then
      match rest₁ with
      | [] => [c₁]
      | c₂ :: rest₂ =>
        if c₂ = lbrace then
          if rest₂.takeWhile isWordChar ≠ [] ∧
             (rest₂.dropWhile isWordChar).take 2 = [rbrace, rbrace] then
            (lookupInput inputs ⟨rest₂.takeWhile isWordChar⟩).data ++
              renderAux inputs ((rest₂.dropWhile isWordChar).drop 2)
          else c₁ :: renderAux inputs (c₂ :: rest₂)
        else c₁ :: renderAux inputs (c₂ :: rest₂)
    else c₁ :: renderAux inputs rest₁
  termination_by l => l.length
  decreasing_by
  all_goals simp only [List.length_cons, List.length_drop]
  all_goals first
  | omega
  | (have h1 : (rest₂.dropWhile isWordChar).length ≤ rest₂.length :=
       (List.dropWhile_sublist isWordChar).length_le
     omega)

/-- `TestRunner.replaceVariables(template, inputs)`. -/
def replaceVariables (template : String) (inputs : List (String × String)) :
    String :=
  ⟨renderAux inputs template.data⟩

/-- Instrumented outcome of `executeTestCase`: the recorded result,
the number of provider calls made, and the backoff delays slept. -/
structure ExecOutcome where
  result : TestCaseResult
  calls : Nat
  delays : List Nat
  deriving Repr, DecidableEq

/-- The successful-attempt record (`executeTestCase`, success path). -/
def successResult (model name : String) (resp : ChatResponse)
    (latency : Nat) : TestCaseResult :=
  { name := name, success := true, latency := latency,
    inputTokens := resp.promptTokens,
    outputTokens := resp.completionTokens,
    cost := calculateCost model resp.promptTokens resp.completionTokens,
    output := some resp.content }

/-- The all-retries-exhausted record (`executeTestCase`, after the
loop): real elapsed latency, zero token counts and cost, and the last
error's message. -/
def failureResult (name : String) (latency : Nat)
    (lastErr : Option String) : TestCaseResult :=
  { name := name, success := false, latency := latency,
    inputTokens := 0, outputTokens := 0, cost := 0,
    error := some (lastErr.getD "Unknown error") }

/-- The retry loop of `executeTestCase`
(`for attempt = 0; attempt <= maxRetries; attempt++`), recursing on
`remaining = maxRetries - attempt`: each failed attempt except the
last is followed by a `2^attempt * 1000` ms backoff sleep. -/
def attemptLoop (model name : String) (req : ChatRequest)
    (provider : ChatRequest → Nat → Except String ChatResponse)
    (dur : ChatRequest → Nat → Nat)
    (attempt : Nat) (elapsed : Nat) : Nat → ExecOutcome
  | 0 =>
    match provider req attempt with
    | .ok resp =>
      { result := successResult model name resp (elapsed + dur req attempt),
        calls := 1, delays := [] }
    | .error e =>
      { result := failureResult name (elapsed + dur req attempt) (some e),
        calls := 1, delays := [] }
  | remaining + 1 =>
    match provider req attempt with
    | .ok resp =>
      { result := successResult model name resp (elapsed + dur req attempt),
        calls := 1, delays := [] }
    | .error _ =>
      let delay := 2 ^ attempt * 1000
      let o := attemptLoop model name req provider dur (attempt + 1)
        (elapsed + dur req attempt + delay) remaining
      { result := o.result, calls := o.calls + 1, delays := delay :: o.delays }

/-- `TestRunner.executeTestCase(testCase, promptTemplate)`: render the
prompt, then run the retry loop from attempt 0. -/
def executeTestCase (opts : TestRunnerOptions)
    (provider : ChatRequest → Nat → Except String ChatResponse)
    (dur : ChatRequest → Nat → Nat)
    (tc : TestCase) (promptTemplate : String) : ExecOutcome :=
  let prompt := replaceVariables promptTemplate tc.inputs
  let req : ChatRequest := { model := opts.model, content := prompt }
  attemptLoop opts.model tc.name req provider dur 0 0 opts.maxRetries

/-- Arithmetic mean (`TestRunner.average`): 0 on the empty list. -/
def averageQ (values : List ℚ) : ℚ :=
  if values.isEmpty then 0 else values.sum / values.length

/-- `TestRunner.calculateSummary(results)`. -/
def calculateSummary (results : List TestCaseResult) : MetricsSummary :=
  let totalCount := results.length
  let successfulResults := results.filter (·.success)
  let successCount := successfulResults.length
  let successRate : ℚ :=
    if 0 < totalCount then (successCount : ℚ) / totalCount else 0
  if successfulResults.isEmpty then
    { avgLatency := 0, avgInputTokens := 0, avgOutputTokens := 0,
      avgCost := 0, successRate := 0,
      totalCount := totalCount, successCount := 0 }
  else
    { avgLatency :=
        toFixedQ 2 (averageQ (successfulResults.map (fun r => (r.latency : ℚ)))),
      avgInputTokens :=
        toFixedQ 2 (averageQ (successfulResults.map (fun r => (r.inputTokens : ℚ)))),
      avgOutputTokens :=
        toFixedQ 2 (averageQ (successfulResults.map (fun r => (r.outputTokens : ℚ)))),
      avgCost :=
        toFixedQ 6 (averageQ (successfulResults.map (fun r => r.cost))),
      successRate := toFixedQ 2 successRate,
      totalCount := totalCount, successCount := successCount }

/-- The per-case results gathered by `TestRunner.run`: `Promise.all`
over `dataset.testCases.map(...)` scatters every settled promise into
the position of its original index, so the list is indexed by the
dataset order by construction. -/
def runResults (opts : TestRunnerOptions)
    (provider : ChatRequest → Nat → Except String ChatResponse)
    (dur : ChatRequest → Nat → Nat)
    (dataset : List TestCase) (promptA : String) : List TestCaseResult :=
  dataset.map (fun tc => (executeTestCase opts provider dur tc promptA).result)

/-- The progress-callback events of a run whose cases complete in the
order `order` (a permutation of the dataset indices chosen by the
scheduler): the shared `completed` counter increments once per
completion, and each event carries `(completed, total, caseName)`. -/
def progressEvents (dataset : List TestCase) (order : List Nat) :
    List (Nat × Nat × String) :=
  ((List.range order.length).zip order).map
    (fun p => (p.1 + 1, dataset.length,
               (((dataset.get? p.2).map (·.name)).getD "")))

/-- `TestRunner.run(dataset, promptA, promptB)`: every case is
executed against `promptA` only (`executeTestCase(testCase, promptA)`);
`promptB` is accepted but never read.  The scheduler's completion
order `order` (an artifact of `pLimit(concurrency)` timing) feeds only
the progress side channel. -/
def run (opts : TestRunnerOptions)
    (provider : ChatRequest → Nat → Except String ChatResponse)
    (dur : ChatRequest → Nat → Nat)
    (dataset : List TestCase) (promptA promptB : String)
    (order : List Nat) : VersionResult × List (Nat × Nat × String) :=
  let results := runResults opts provider dur dataset promptA
  (⟨results, calculateSummary results⟩, progressEvents dataset order)

/-! ## Statistical analyzer (`src/core/statistical-analyzer.ts`)

The arithmetic is carried out over `ℚ`.  The transcendental
`Math.sqrt`, `Math.exp` and fractional `Math.pow` are abstract
parameters (`sqrtF`, `expF`, `powF`); theorems that need a fact about
them (such as `sqrtF 0 = 0`, true of `Math.sqrt`) take it as a
hypothesis.  Division by zero is total (`x / 0 = 0`) where JavaScript
would produce `Infinity`/`NaN`; no claim depends on a value computed
along such a path. -/

/-- `TTestResult` of `src/types/test.ts`. -/
structure TTestResult where
  meanA : ℚ
  meanB : ℚ
  difference : ℚ
  pValue : ℚ
  significant : Bool
  confidenceInterval : ℚ × ℚ
  sampleSizeA : Nat
  sampleSizeB : Nat
  deriving Repr, DecidableEq

/-- The `{latency, cost, tokens}` comparison bundle. -/
structure StatisticalComparison where
  latency : TTestResult
  cost : TTestResult
  tokens : TTestResult
  deriving Repr, DecidableEq

/-- Arithmetic mean `sum/length` (meaningful on nonempty lists). -/
def meanQ (s : List ℚ) : ℚ := s.sum / s.length

/-- `ss.mean` from simple-statistics: throws on the empty list,
otherwise `sum/length`. -/
def ssMean (s : List ℚ) : Except String ℚ :=
  if s.isEmpty then .error "mean requires at least one data point"
  else .ok (meanQ s)

/-- `ss.variance` from simple-statistics: the population variance
(mean of squared deviations, `n` denominator). -/
def ssVariance (s : List ℚ) : ℚ :=
  meanQ (s.map (fun x => (x - meanQ s) ^ 2))

section Stats

variable (sqrtF expF : ℚ → ℚ) (powF : ℚ → ℚ → ℚ)

/-- `ss.standardDeviation`: `Math.sqrt(variance(x))`. -/
def ssStdDev (s : List ℚ) : ℚ := sqrtF (ssVariance s)

/-- `StatisticalAnalyzer.erf`: the Abramowitz–Stegun polynomial
approximation of the error function. -/
def erfQ (x : ℚ) : ℚ :=
  let a1 : ℚ := 0.254829592
  let a2 : ℚ := -0.284496736
  let a3 : ℚ := 1.421413741
  let a4 : ℚ := -1.453152027
  let a5 : ℚ := 1.061405429
  let p : ℚ := 0.3275911
  let sign : ℚ := if x < 0 then -1 else 1
  let absX := |x|
  let t := 1 / (1 + p * absX)
  let y :=
    1 - (((((a5 * t + a4) * t) + a3) * t + a2) * t + a1) * t *
      expF (-(absX * absX))
  sign * y

/-- The iteration of `betaContinuedFraction`: state `(am, bm, az, bz)`
with `bz` reset to 1 each round; the loop breaks when
`|az - aold| < 1e-10 * |az|`, and runs for at most the given fuel
(200 in the source). -/
def betaCFLoop (x a b : ℚ) (am bm az bz : ℚ) (m : Nat) : Nat → ℚ
  | 0 => az
  | fuel + 1 =>
    let m2 : ℚ := 2 * (m : ℚ)
    let d1 := (m : ℚ) * (b - m) * x / ((a - 1 + m2) * (a + m2))
    let ap := az + d1 * am
    let bp := bz + d1 * bm
    let d2 := -((a + m) * (a + b + m) * x) / ((a + m2) * (a + 1 + m2))
    let app := ap + d2 * az
    let bpp := bp + d2 * bz
    let aold := az
    let amN := ap / bpp
    let bmN := bp / bpp
    let azN := app / bpp
    if |azN - aold| < (1 / 10 ^ 10 : ℚ) * |azN| then azN
    else betaCFLoop x a b amN bmN azN 1 (m + 1) fuel

/-- `StatisticalAnalyzer.betaContinuedFraction(x, a, b)`. -/
def betaContinuedFraction (x a b : ℚ) : ℚ :=
  let az := betaCFLoop x a b 1 1 1 (1 - (a + b) * x / (a + 1)) 1 200
  az * powF x a * powF (1 - x) b / a

/-- `StatisticalAnalyzer.incompleteBeta(x, a, b)`. -/
def incompleteBeta (x a b : ℚ) : ℚ :=
  if x ≤ 0 then 0
  else if 1 ≤ x then 1
  else if x < (a + 1) / (a + b + 2) then betaContinuedFraction powF x a b
  else 1 - betaContinuedFraction powF (1 - x) b a

/-- `StatisticalAnalyzer.calculatePValue(tStat, df)`: 1 when the
t-statistic is 0 or `df ≤ 0`; a normal approximation through the
error function for `df > 30`; otherwise the incomplete-beta
approximation, two-tailed and capped at 1. -/
def calculatePValue (tStat df : ℚ) : ℚ :=
  if tStat = 0 then 1
  else if df ≤ 0 then 1
  else if 30 < df then
    let z := tStat
    let p := (1 / 2 : ℚ) * (1 + erfQ expF (z / sqrtF 2))
    2 * (1 - p)
  else
    let x := df / (df + tStat * tStat)
    let p := (1 / 2 : ℚ) * incompleteBeta powF x (df / 2) (1 / 2)
    min (2 * p) 1

end Stats

/-- The tabulated 95% two-tailed critical values for integer df 1–30
(`criticalValues` object of `getTCriticalValue`). -/
def tTable : Int → Option ℚ
  | 1 => some 12.706
  | 2 => some 4.303
  | 3 => some 3.182
  | 4 => some 2.776
  | 5 => some 2.571
  | 6 => some 2.447
  | 7 => some 2.365
  | 8 => some 2.306
  | 9 => some 2.262
  | 10 => some 2.228
  | 11 => some 2.201
  | 12 => some 2.179
  | 13 => some 2.160
  | 14 => some 2.145
  | 15 => some 2.131
  | 16 => some 2.120
  | 17 => some 2.110
  | 18 => some 2.101
  | 19 => some 2.093
  | 20 => some 2.086
  | 21 => some 2.080
  | 22 => some 2.074
  | 23 => some 2.069
  | 24 => some 2.064
  | 25 => some 2.060
  | 26 => some 2.056
  | 27 => some 2.052
  | 28 => some 2.048
  | 29 => some 2.045
  | 30 => some 2.042
  | _ => none

/-- `StatisticalAnalyzer.getTCriticalValue(df)`: 1.96 beyond 100, the
table at integer df, linear interpolation between adjacent table rows,
1.96 otherwise.  (The interpolation fallback arm is unreachable when
`1 ≤ ⌊df⌋` and `⌈df⌉ ≤ 30`.) -/
def getTCriticalValue (df : ℚ) : ℚ :=
  if 100 < df then 1.96
  else
    match (if df.den = 1 then tTable df.num else none) with
    | some v => v
    | none =>
      let lower : Int := ⌊df⌋
      let upper : Int := ⌈df⌉
      if 1 ≤ lower ∧ upper ≤ 30 then
        match tTable lower, tTable upper with
        | some t1, some t2 => t1 + (t2 - t1) * (df - (lower : ℚ))
        | _, _ => 1.96
      else 1.96

section StatsMain

variable (sqrtF expF : ℚ → ℚ) (powF : ℚ → ℚ → ℚ)

/-- `stdDevA`/`stdDevB` of `tTest`:
`sample.length > 1 ? ss.standardDeviation(sample) : 0`. -/
def guardedStdDev (s : List ℚ) : ℚ :=
  if 1 < s.length then ssStdDev sqrtF s else 0

/-- The pooled standard error of `tTest`:
`sqrt(seA² + seB²)` with `se = stdDev / sqrt(n)`. -/
def standardErrorOf (sampleA sampleB : List ℚ) : ℚ :=
  let seA := guardedStdDev sqrtF sampleA / sqrtF (sampleA.length : ℚ)
  let seB := guardedStdDev sqrtF sampleB / sqrtF (sampleB.length : ℚ)
  sqrtF (seA * seA + seB * seB)

/-- The t-statistic of `tTest`:
`standardError > 0 ? difference / standardError : 0`. -/
def tStatisticOf (sampleA sampleB : List ℚ) (meanA meanB : ℚ) : ℚ :=
  if 0 < standardErrorOf sqrtF sampleA sampleB then
    (meanB - meanA) / standardErrorOf sqrtF sampleA sampleB
  else 0

/-- The Welch–Satterthwaite degrees of freedom of `tTest`, with the
`nA + nB - 2` fallback when either variance is 0 or the denominator
vanishes. -/
def welchDF (sampleA sampleB : List ℚ) : ℚ :=
  let stdDevA := guardedStdDev sqrtF sampleA
  let stdDevB := guardedStdDev sqrtF sampleB
  let nA := sampleA.length
  let nB := sampleB.length
  let dfFallback : ℚ := (nA : ℚ) + (nB : ℚ) - 2
  if 0 < stdDevA ∧ 0 < stdDevB then
    let varA := stdDevA * stdDevA
    let varB := stdDevB * stdDevB
    let num := powF (varA / (nA : ℚ) + varB / (nB : ℚ)) 2
    let den := varA * varA / ((nA : ℚ) * nA * ((nA : ℚ) - 1)) +
               varB * varB / ((nB : ℚ) * nB * ((nB : ℚ) - 1))
    if 0 < den then num / den else dfFallback
  else dfFallback

/-- The body of `tTest` once both means exist. -/
def tTestCore (sampleA sampleB : List ℚ) (meanA meanB : ℚ) : TTestResult :=
  let difference := meanB - meanA
  let standardError := standardErrorOf sqrtF sampleA sampleB
  let tStatistic := tStatisticOf sqrtF sampleA sampleB meanA meanB
  let degreesOfFreedom := welchDF sqrtF powF sampleA sampleB
  let pValue :=
    calculatePValue sqrtF expF powF |tStatistic| degreesOfFreedom
  let criticalValue := getTCriticalValue degreesOfFreedom
  let marginOfError := criticalValue * standardError
  { meanA := toFixedQ 4 meanA
    meanB := toFixedQ 4 meanB
    difference := toFixedQ 4 difference
    pValue := toFixedQ 6 pValue
    significant := decide (pValue < (0.05 : ℚ))
    confidenceInterval :=
      (toFixedQ 4 (difference - marginOfError),
       toFixedQ 4 (difference + marginOfError))
    sampleSizeA := sampleA.length
    sampleSizeB := sampleB.length }

/-- `StatisticalAnalyzer.tTest(sampleA, sampleB)`: Welch's
unequal-variance two-sample t-test as implemented.  The `ss.mean`
calls throw on an empty sample, modelled by the `Except`. -/
def tTest (sampleA sampleB : List ℚ) : Except String TTestResult := do
  let meanA ← ssMean sampleA
  let meanB ← ssMean sampleB
  pure (tTestCore sqrtF expF powF sampleA sampleB meanA meanB)

/-- `StatisticalAnalyzer.compareVersions(resultA, resultB)`: filter
each version to its successful cases, extract latency, cost and total
tokens, and t-test each metric. -/
def compareVersions (resultA resultB : VersionResult) :
    Except String StatisticalComparison := do
  let successfulA := resultA.testCases.filter (·.success)
  let successfulB := resultB.testCases.filter (·.success)
  let latency ← tTest sqrtF expF powF
    (successfulA.map (fun tc => (tc.latency : ℚ)))
    (successfulB.map (fun tc => (tc.latency : ℚ)))
  let cost ← tTest sqrtF expF powF
    (successfulA.map (fun tc => tc.cost))
    (successfulB.map (fun tc => tc.cost))
  let tokens ← tTest sqrtF expF powF
    (successfulA.map (fun tc => ((tc.inputTokens + tc.outputTokens : Nat) : ℚ)))
    (successfulB.map (fun tc => ((tc.inputTokens + tc.outputTokens : Nat) : ℚ)))
  pure { latency := latency, cost := cost, tokens := tokens }

end StatsMain

/-! ## Concrete instances used by counterexamples and witnesses -/

/-- A 64-character digest-shaped string. -/
def exHash : String := ⟨List.replicate 64 'a'⟩

/-- The first seven characters of `exHash`, a strict prefix. -/
def exAbbrev : String := ⟨List.replicate 7 'a'⟩

/-- A root commit stored under `exHash`. -/
def exCommit : Commit :=
  { tree := [("prompt.txt", "bbbb")], parent := none,
    message := "init", timestamp := "2024-01-01T00:00:00.000Z" }

/-- A repository whose HEAD commit is `exCommit`. -/
def exRepo : RepoState :=
  { initialized := true, index := ⟨[]⟩, head := some exHash,
    objects := [(exHash, .commit exCommit)] }

/-- An initialized repository with one staged file and no commits. -/
def exRepoStaged : RepoState :=
  { initialized := true,
    index := ⟨[("prompt.txt", ⟨"bbbb", "prompt.txt"⟩)]⟩,
    head := none, objects := [] }

/-- Runner options with `maxRetries = 2`. -/
def optsR2 : TestRunnerOptions :=
  { model := "gpt-4o", concurrency := 2, maxRetries := 2 }

/-- A named test case with no inputs. -/
def tc0 : TestCase := { name := "case0", inputs := [] }

/-- A provider that fails on attempts 0 and 1and succeeds on
attempt 2. -/
def providerFail2 : ChatRequest → Nat → Except String ChatResponse :=
  fun _ attempt =>
    if attempt < 2 then .error ("err" ++ toString attempt)
    else .ok { content := "ok", promptTokens := 3, completionTokens := 4 }

/-- A provider whose every call fails, with distinct messages. -/
def providerAlwaysFail : ChatRequest → Nat → Except String ChatResponse :=
  fun _ attempt => .error ("err" ++ toString attempt)

/-- Every provider call takes one millisecond. -/
def durOne : ChatRequest → Nat → Nat := fun _ _ => 1

/-! ## Helper lemmas -/

/-- Reading back the object just written returns it. -/
theorem lookupObject_writeObject (objs : List (String × StoredObj))
    (h : String) (o : StoredObj) :
    lookupObject (writeObject objs h o) h = some o := by
  unfold lookupObject writeObject
  by_cases hmem : objs.any (fun e => e.1 = h)
  · simp only [hmem, if_true]
    induction objs with
    | nil => simp at hmem
    | cons e t ih =>
      by_cases he : e.1 = h
      · simp [List.find?, he]
      · have ht : t.any (fun e => e.1 = h) := by
          simp only [List.any_cons] at hmem
          rcases Bool.or_eq_true_iff.mp hmem with h1 | h1
          · exact absurd (by simpa using h1) he
          · exact h1
        have hd : decide (e.1 = h) = false := decide_eq_false he
        simp only [List.map_cons, if_neg he, List.find?, hd]
        exact ih ht
  · simp only [hmem, if_false]
    induction objs with
    | nil => simp [List.find?]
    | cons e t ih =>
      have he : ¬e.1 = h := by
        intro hc
        exact hmem (by simp [List.any_cons, hc])
      have ht : ¬t.any (fun e => e.1 = h) := by
        intro hc
        exact hmem (by simp [List.any_cons, hc])
      have hd : decide (e.1 = h) = false := decide_eq_false he
      simp only [List.cons_append, List.find?, hd]
      exact ih ht

/-! ## Claims -/

/-- C1: commit is atomic on failure: for every initialized repository
state, calling commit with an empty (or whitespace-only) message, or
with any message while the staging index is empty, fails (exit code 1
for the message validation, 3 for the empty stage — both ValidationError
cases in the spec's taxonomy) and leaves the whole repository state,
in particular HEAD and the staging index, exactly as it was. -/
theorem commit_validation_atomic (hashF : String → String) (now : String)
    (st : RepoState) (message : String)
    (hinit : st.initialized = true)
    (hfail : jsTrim message = "" ∨ st.index.staged = []) :
    (commitCommand hashF now st message).2 = st ∧
    ((commitCommand hashF now st message).1 = 1 ∨
     (commitCommand hashF now st message).1 = 3) := by
  unfold commitCommand
  rcases hfail with h | h
  · simp [hinit, h]
  · by_cases hm : jsTrim message = ""
    · simp [hinit, hm]
    · simp [hinit, hm, h]

/-- Witness for C1 at a concrete repository with an empty stage. -/
theorem commit_validation_atomic_witness :
    (commitCommand id "t" exRepo "msg").2 = exRepo ∧
    ((commitCommand id "t" exRepo "msg").1 = 1 ∨
     (commitCommand id "t" exRepo "msg").1 = 3) :=
  commit_validation_atomic id "t" exRepo "msg" rfl (Or.inr rfl)

/-- C2: commit success postcondition: with a non-empty staging index
and a non-trivial message, commit succeeds (exit 0) and creates a
commit whose tree maps exactly the staged paths to their staged blob
digests and whose parent is the pre-call HEAD; afterwards HEAD is the
digest of the serialized new commit, that commit is stored, and the
staging index is empty. -/
theorem commit_success_postcondition (hashF : String → String)
    (now : String) (st : RepoState) (message : String)
    (hinit : st.initialized = true)
    (hmsg : jsTrim message ≠ "")
    (hstaged : st.index.staged ≠ []) :
    ∃ c : Commit,
      c.tree = st.index.staged.map (fun e => (e.1, e.2.hash)) ∧
      c.parent = st.head ∧
      c.message = jsTrim message ∧
      (commitCommand hashF now st message).1 = 0 ∧
      (commitCommand hashF now st message).2.head =
        some (hashF (serializeCommit c)) ∧
      lookupObject (commitCommand hashF now st message).2.objects
        (hashF (serializeCommit c)) = some (.commit c) ∧
      (commitCommand hashF now st message).2.index.staged = [] := by
  refine ⟨{ tree := st.index.staged.map (fun e => (e.1, e.2.hash)),
            parent := st.head, message := jsTrim message,
            timestamp := now }, rfl, rfl, rfl, ?_, ?_, ?_, ?_⟩
  all_goals
    unfold commitCommand
    simp [hinit, hmsg, hstaged, lookupObject_writeObject,
          List.isEmpty_iff, List.map_eq_nil_iff]

/-- Witness for C2 at a concrete repository with one staged file. -/
theorem commit_success_postcondition_witness :
    ∃ c : Commit,
      c.tree = exRepoStaged.index.staged.map (fun e => (e.1, e.2.hash)) ∧
      c.parent = exRepoStaged.head ∧
      c.message = jsTrim "init" ∧
      (commitCommand id "2024" exRepoStaged "init").1 = 0 ∧
      (commitCommand id "2024" exRepoStaged "init").2.head =
        some (id (serializeCommit c)) ∧
      lookupObject (commitCommand id "2024" exRepoStaged "init").2.objects
        (id (serializeCommit c)) = some (.commit c) ∧
      (commitCommand id "2024" exRepoStaged "init").2.index.staged = [] :=
  commit_success_postcondition id "2024" exRepoStaged "init" rfl
    (by decide) (by decide)

/-- C3 counterexample: on a repository whose HEAD commit has digest
`exHash`, the seven-character prefix resolves under the spec's
chain-walking description but `Repository.resolveCommit` returns
`null` — the claim is false of the code as stated. -/
theorem resolve_prefix_counterexample :
    specResolveCommit exRepo exAbbrev 10 = some exHash ∧
    resolveCommit exRepo exAbbrev = none := by decide

/-- C3 (amended): `Repository.resolveCommit` resolves `"HEAD"` to the
current pointer and any other token only by exact object lookup (some
`ref` exactly when `ref` is at least 7 characters and a commit object
is stored under precisely that token), with no prefix search and no
chain walk.  The parent-chain prefix walk exists only in the diff
command's resolver, whose successful result is the first digest in
the chain from the start node that has the token as a prefix. -/
theorem resolve_actual_semantics :
    (∀ st : RepoState, resolveCommit st "HEAD" = st.head) ∧
    (∀ (st : RepoState) (ref : String), ref ≠ "HEAD" →
      resolveCommit st ref =
        if 7 ≤ ref.length ∧ (getCommit st ref).isSome then some ref
        else none) ∧
    (∀ (st : RepoState) (tok cur : String) (fuel : Nat) (d : String),
      resolveWalk st tok cur fuel = .ok d →
      (chainFrom st cur fuel).find? (fun x => jsStartsWith tok x) = some d) := by
  refine ⟨?_, ?_, ?_⟩
  · intro st
    have hlen : ¬(7 ≤ "HEAD".length ∧ (getCommit st "HEAD").isSome) := by
      intro hc
      have := hc.1
      simp [String.length] at this
    unfold resolveCommit
    simp [hlen]
  · intro st ref h
    unfold resolveCommit
    by_cases hc : 7 ≤ ref.length ∧ (getCommit st ref).isSome
    · simp [hc]
    · simp [hc, h]
  · intro st tok cur fuel
    induction fuel generalizing cur with
    | zero => intro d h; simp [resolveWalk] at h
    | succ n ih =>
      intro d h
      unfold resolveWalk at h
      by_cases hp : jsStartsWith tok cur
      · rw [if_pos hp] at h
        cases h
        simp [chainFrom, List.find?, hp]
      · rw [if_neg hp] at h
        cases hg : getCommitDiff st cur with
        | none => rw [hg] at h; cases h
        | some c =>
          rw [hg] at h
          dsimp only at h
          cases hpar : c.parent with
          | none => rw [hpar] at h; cases h
          | some p =>
            rw [hpar] at h
            have hd : (jsStartsWith tok cur) = false := by
              simpa using hp
            simp only [chainFrom, hg, hpar, List.find?, hd]
            exact ih p d h

/-- Witness for the amended C3 at a concrete repository. -/
theorem resolve_actual_semantics_witness :
    (resolveCommit exRepo "abcdefg" =
      if 7 ≤ ("abcdefg" : String).length ∧
         (getCommit exRepo "abcdefg").isSome then some "abcdefg"
      else none) ∧
    (chainFrom exRepo exHash 3).find?
      (fun x => jsStartsWith exAbbrev x) = some exHash :=
  ⟨resolve_actual_semantics.2.1 exRepo "abcdefg" (by decide),
   resolve_actual_semantics.2.2 exRepo exAbbrev exHash 3 exHash rfl⟩

/-- Every branch of the retry loop records the test case's name. -/
theorem attemptLoop_name (model name : String) (req : ChatRequest)
    (provider : ChatRequest → Nat → Except String ChatResponse)
    (dur : ChatRequest → Nat → Nat) :
    ∀ (remaining attempt elapsed : Nat),
      (attemptLoop model name req provider dur attempt elapsed
        remaining).result.name = name := by
  intro remaining
  induction remaining with
  | zero =>
    intro attempt elapsed
    unfold attemptLoop
    cases provider req attempt <;> rfl
  | succ n ih =>
    intro attempt elapsed
    unfold attemptLoop
    cases provider req attempt with
    | ok r => rfl
    | error e => exact ih _ _

/-- C4: result ordering: for every dataset and every concurrency ≥ 1,
and regardless of the completion order chosen by the scheduler, the
per-case result list of `run` has the dataset's length and its i-th
entry is the result of executing the i-th input case (carrying that
case's name). -/
theorem run_result_ordering (opts : TestRunnerOptions)
    (provider : ChatRequest → Nat → Except String ChatResponse)
    (dur : ChatRequest → Nat → Nat)
    (dataset : List TestCase) (promptA promptB : String)
    (order : List Nat)
    (hconc : 1 ≤ opts.concurrency) :
    ((run opts provider dur dataset promptA promptB
        order).1.testCases).length = dataset.length ∧
    ∀ i, i < dataset.length →
      ∃ tc, dataset[i]? = some tc ∧
        ((run opts provider dur dataset promptA promptB
            order).1.testCases)[i]? =
          some (executeTestCase opts provider dur tc promptA).result ∧
        (executeTestCase opts provider dur tc promptA).result.name =
          tc.name := by
  constructor
  · simp [run, runResults]
  · intro i hi
    have hd : dataset[i]? = some dataset[i] := List.getElem?_eq_getElem hi
    refine ⟨dataset[i], hd, ?_, ?_⟩
    · simp [run, runResults, List.getElem?_map, hd]
    · simp [executeTestCase, attemptLoop_name]

/-- Witness for C4 at a one-case dataset. -/
theorem run_result_ordering_witness :
    ((run optsR2 providerFail2 durOne [tc0] "p" "q"
        [0]).1.testCases).length = [tc0].length ∧
    ∀ i, i < [tc0].length →
      ∃ tc, [tc0][i]? = some tc ∧
        ((run optsR2 providerFail2 durOne [tc0] "p" "q"
            [0]).1.testCases)[i]? =
          some (executeTestCase optsR2 providerFail2 durOne tc "p").result ∧
        (executeTestCase optsR2 providerFail2 durOne tc "p").result.name =
          tc.name :=
  run_result_ordering optsR2 providerFail2 durOne [tc0] "p" "q" [0]
    (by decide)

/-- The retry loop always makes at least one provider call. -/
theorem attemptLoop_calls_pos (model name : String) (req : ChatRequest)
    (provider : ChatRequest → Nat → Except String ChatResponse)
    (dur : ChatRequest → Nat → Nat)
    (remaining attempt elapsed : Nat) :
    1 ≤ (attemptLoop model name req provider dur attempt elapsed
      remaining).calls := by
  cases remaining <;> unfold attemptLoop <;>
    cases provider req attempt <;> simp

/-- The retry loop starting at `attempt` makes at most `remaining + 1`
calls and sleeps `2^a * 1000` ms after the `a`-th of its failed calls,
for every failed call except the last. -/
theorem attemptLoop_spec (model name : String) (req : ChatRequest)
    (provider : ChatRequest → Nat → Except String ChatResponse)
    (dur : ChatRequest → Nat → Nat) :
    ∀ (remaining attempt elapsed : Nat),
      (attemptLoop model name req provider dur attempt elapsed
        remaining).calls ≤ remaining + 1 ∧
      (attemptLoop model name req provider dur attempt elapsed
        remaining).delays =
        (List.range ((attemptLoop model name req provider dur attempt
          elapsed remaining).calls - 1)).map
            (fun a => 2 ^ (attempt + a) * 1000) := by
  intro remaining
  induction remaining with
  | zero =>
    intro attempt elapsed
    unfold attemptLoop
    cases provider req attempt <;> simp
  | succ n ih =>
    intro attempt elapsed
    unfold attemptLoop
    cases hp : provider req attempt with
    | ok r => simp
    | error e =>
      obtain ⟨ih1, ih2⟩ :=
        ih (attempt + 1) (elapsed + dur req attempt + 2 ^ attempt * 1000)
      have hpos := attemptLoop_calls_pos model name req provider dur n
        (attempt + 1) (elapsed + dur req attempt + 2 ^ attempt * 1000)
      constructor
      · dsimp only
        omega
      · dsimp only
        obtain ⟨k, hk⟩ : ∃ k,
            (attemptLoop model name req provider dur (attempt + 1)
              (elapsed + dur req attempt + 2 ^ attempt * 1000) n).calls =
              k + 1 :=
          ⟨(attemptLoop model name req provider dur (attempt + 1)
              (elapsed + dur req attempt + 2 ^ attempt * 1000) n).calls - 1,
            by omega⟩
        rw [ih2, hk]
        simp only [Nat.add_sub_cancel, List.range_succ_eq_map,
          List.map_cons, List.map_map]
        simp only [List.cons.injEq]
        refine ⟨by simp, ?_⟩
        apply List.map_congr_left
        intro a _
        simp only [Function.comp]
        have h3 : attempt + 1 + a = attempt + (a + 1) := by omega
        rw [h3]

/-- C5: retry policy: the provider is invoked at most
`maxRetries + 1` times per case, with a `2^attempt * 1000` ms backoff
after each failed attempt except the last; with `maxRetries = 2`, a
provider failing twice then succeeding is called exactly 3 times and
the case succeeds, and an always-failing provider is called exactly 3
times, the case fails, and the last error's message is preserved. -/
theorem retry_policy :
    (∀ (opts : TestRunnerOptions)
       (provider : ChatRequest → Nat → Except String ChatResponse)
       (dur : ChatRequest → Nat → Nat) (tc : TestCase) (prompt : String),
      (executeTestCase opts provider dur tc prompt).calls ≤
        opts.maxRetries + 1 ∧
      (executeTestCase opts provider dur tc prompt).delays =
        (List.range
          ((executeTestCase opts provider dur tc prompt).calls - 1)).map
            (fun a => 2 ^ a * 1000)) ∧
    ((executeTestCase optsR2 providerFail2 durOne tc0 "p").calls = 3 ∧
     (executeTestCase optsR2 providerFail2 durOne tc0
        "p").result.success = true) ∧
    ((executeTestCase optsR2 providerAlwaysFail durOne tc0 "p").calls = 3 ∧
     (executeTestCase optsR2 providerAlwaysFail durOne tc0
        "p").result.success = false ∧
     (executeTestCase optsR2 providerAlwaysFail durOne tc0
        "p").result.error = some "err2") := by
  refine ⟨?_, by decide, by decide⟩
  intro opts provider dur tc prompt
  unfold executeTestCase
  obtain ⟨h1, h2⟩ := attemptLoop_spec opts.model tc.name
    { model := opts.model,
      content := replaceVariables prompt tc.inputs }
    provider dur opts.maxRetries 0 0
  refine ⟨h1, ?_⟩
  rw [h2]
  apply List.map_congr_left
  intro a _
  simp

/-- When the retry loop ends in failure, every field of the record is
the source's: the last attempt's error message, the full elapsed time
(call durations plus backoff delays), and zero token counts and cost. -/
theorem attemptLoop_fail (model name : String) (req : ChatRequest)
    (provider : ChatRequest → Nat → Except String ChatResponse)
    (dur : ChatRequest → Nat → Nat) :
    ∀ (remaining attempt elapsed : Nat),
      (attemptLoop model name req provider dur attempt elapsed
        remaining).result.success = false →
      (∃ e, provider req (attempt + remaining) = .error e ∧
        (attemptLoop model name req provider dur attempt elapsed
          remaining).result.error = some e) ∧
      (attemptLoop model name req provider dur attempt elapsed
        remaining).result.latency =
        elapsed +
          ((List.range' attempt (remaining + 1)).map
            (fun a => dur req a)).sum +
          ((List.range' attempt remaining).map
            (fun a => 2 ^ a * 1000)).sum ∧
      (attemptLoop model name req provider dur attempt elapsed
        remaining).result.inputTokens = 0 ∧
      (attemptLoop model name req provider dur attempt elapsed
        remaining).result.outputTokens = 0 ∧
      (attemptLoop model name req provider dur attempt elapsed
        remaining).result.cost = 0 := by
  intro remaining
  induction remaining with
  | zero =>
    intro attempt elapsed hfail
    unfold attemptLoop at hfail ⊢
    cases hp : provider req attempt with
    | ok r => rw [hp] at hfail; simp [successResult] at hfail
    | error e =>
      refine ⟨⟨e, by simpa using hp, by simp [failureResult]⟩, ?_, ?_, ?_, ?_⟩
      all_goals simp [failureResult, List.range'_one, List.range']
  | succ n ih =>
    intro attempt elapsed hfail
    unfold attemptLoop at hfail ⊢
    cases hp : provider req attempt with
    | ok r => rw [hp] at hfail; simp [successResult] at hfail
    | error e =>
      rw [hp] at hfail
      dsimp only at hfail ⊢
      obtain ⟨⟨e2, he2, herr⟩, hlat, hin, hout, hcost⟩ :=
        ih (attempt + 1) (elapsed + dur req attempt + 2 ^ attempt * 1000)
          hfail
      refine ⟨⟨e2, ?_, herr⟩, ?_, hin, hout, hcost⟩
      · have h4 : attempt + (n + 1) = attempt + 1 + n := by omega
        rw [h4]
        exact he2
      · rw [hlat]
        rw [List.range'_succ attempt (n + 1) 1,
            List.range'_succ attempt n 1]
        simp only [List.map_cons, List.sum_cons]
        omega

/-- C6 counterexample: with `maxRetries = 2` and an always-failing
provider taking 1 ms per call, the failed-case record has
`success = false` but `latency = 3003` (three 1 ms calls plus the
1000 ms and 2000 ms backoffs) — not the zeroed latency the claim
states. -/
theorem failed_case_zero_latency_counterexample :
    (executeTestCase optsR2 providerAlwaysFail durOne tc0
      "p").result.success = false ∧
    (executeTestCase optsR2 providerAlwaysFail durOne tc0
      "p").result.latency = 3003 ∧
    ¬(executeTestCase optsR2 providerAlwaysFail durOne tc0
      "p").result.latency = 0 := by decide

/-- C6 (amended): a test case whose provider calls all fail records
`success = false`, zero token counts and zero cost, the last error's
message in `error`, and — unlike the claim's zeroed metrics — a
`latency` equal to the full elapsed time: the sum of all
`maxRetries + 1` call durations plus the backoff delays
`2^a * 1000` ms for `a < maxRetries`. -/
theorem failed_case_record (opts : TestRunnerOptions)
    (provider : ChatRequest → Nat → Except String ChatResponse)
    (dur : ChatRequest → Nat → Nat) (tc : TestCase) (prompt : String)
    (hfail : (executeTestCase opts provider dur tc
      prompt).result.success = false) :
    (∃ e, provider
        { model := opts.model,
          content := replaceVariables prompt tc.inputs }
        opts.maxRetries = .error e ∧
      (executeTestCase opts provider dur tc prompt).result.error =
        some e) ∧
    (executeTestCase opts provider dur tc prompt).result.latency =
      ((List.range' 0 (opts.maxRetries + 1)).map
        (fun a => dur
          { model := opts.model,
            content := replaceVariables prompt tc.inputs } a)).sum +
      ((List.range' 0 opts.maxRetries).map
        (fun a => 2 ^ a * 1000)).sum ∧
    (executeTestCase opts provider dur tc prompt).result.inputTokens = 0 ∧
    (executeTestCase opts provider dur tc prompt).result.outputTokens = 0 ∧
    (executeTestCase opts provider dur tc prompt).result.cost = 0 := by
  have h := attemptLoop_fail opts.model tc.name
    { model := opts.model, content := replaceVariables prompt tc.inputs }
    provider dur opts.maxRetries 0 0 (by exact hfail)
  simpa [executeTestCase] using h

/-- Witness for the amended C6 at the always-failing provider. -/
theorem failed_case_record_witness :
    (∃ e, providerAlwaysFail
        { model := optsR2.model,
          content := replaceVariables "p" tc0.inputs }
        optsR2.maxRetries = .error e ∧
      (executeTestCase optsR2 providerAlwaysFail durOne tc0
        "p").result.error = some e) ∧
    (executeTestCase optsR2 providerAlwaysFail durOne tc0
      "p").result.latency =
      ((List.range' 0 (optsR2.maxRetries + 1)).map
        (fun a => durOne
          { model := optsR2.model,
            content := replaceVariables "p" tc0.inputs } a)).sum +
      ((List.range' 0 optsR2.maxRetries).map
        (fun a => 2 ^ a * 1000)).sum ∧
    (executeTestCase optsR2 providerAlwaysFail durOne tc0
      "p").result.inputTokens = 0 ∧
    (executeTestCase optsR2 providerAlwaysFail durOne tc0
      "p").result.outputTokens = 0 ∧
    (executeTestCase optsR2 providerAlwaysFail durOne tc0
      "p").result.cost = 0 :=
  failed_case_record optsR2 providerAlwaysFail durOne tc0 "p" (by decide)

/-- Rounding fixes 0. -/
theorem toFixedQ_zero (d : Nat) : toFixedQ d 0 = 0 := by
  simp [toFixedQ]

/-- Rounding fixes 1. -/
theorem toFixedQ_one (d : Nat) : toFixedQ d 1 = 1 := by
  unfold toFixedQ
  rw [one_mul]
  have h : ((10 : ℚ)) ^ d = ((10 ^ d : ℤ) : ℚ) := by push_cast; ring
  rw [h, round_intCast, ← h]
  rw [div_self]
  positivity

/-- The t-statistic of a sample against itself is 0. -/
theorem tStatisticOf_self (sqrtF : ℚ → ℚ) (s : List ℚ) (m : ℚ) :
    tStatisticOf sqrtF s s m m = 0 := by
  unfold tStatisticOf
  split <;> simp

/-- `calculatePValue` returns 1 at a zero t-statistic. -/
theorem calculatePValue_zero (sqrtF expF : ℚ → ℚ) (powF : ℚ → ℚ → ℚ)
    (df : ℚ) : calculatePValue sqrtF expF powF 0 df = 1 := by
  unfold calculatePValue
  simp

/-- C7: tTest degenerate-input postconditions: a non-empty sample
against itself yields difference 0, p-value 1 and not significant;
two singleton samples give zero standard deviations, zero pooled
standard error, a zero t-statistic and p-value 1, all produced
totally (no division by zero: `x / 0 = 0` never feeds a claimed
value, the guards do). -/
theorem tTest_degenerate_inputs (sqrtF expF : ℚ → ℚ)
    (powF : ℚ → ℚ → ℚ) (hsqrt : sqrtF 0 = 0) :
    (∀ s : List ℚ, s ≠ [] →
      ∃ r, tTest sqrtF expF powF s s = .ok r ∧
        r.difference = 0 ∧ r.pValue = 1 ∧ r.significant = false) ∧
    (∀ a b : ℚ,
      guardedStdDev sqrtF [a] = 0 ∧
      guardedStdDev sqrtF [b] = 0 ∧
      standardErrorOf sqrtF [a] [b] = 0 ∧
      tStatisticOf sqrtF [a] [b] (meanQ [a]) (meanQ [b]) = 0 ∧
      ∃ r, tTest sqrtF expF powF [a] [b] = .ok r ∧
        r.pValue = 1 ∧ r.significant = false) := by
  constructor
  · intro s hs
    have hm : ssMean s = .ok (meanQ s) := by
      simp [ssMean, List.isEmpty_iff, hs]
    refine ⟨tTestCore sqrtF expF powF s s (meanQ s) (meanQ s),
      ?_, ?_, ?_, ?_⟩
    · simp only [tTest, hm]
      rfl
    · simp [tTestCore, toFixedQ_zero]
    · simp [tTestCore, tStatisticOf_self, calculatePValue_zero,
        toFixedQ_one]
    · simp [tTestCore, tStatisticOf_self, calculatePValue_zero]
      norm_num
  · intro a b
    have hstdA : guardedStdDev sqrtF [a] = 0 := by simp [guardedStdDev]
    have hstdB : guardedStdDev sqrtF [b] = 0 := by simp [guardedStdDev]
    have hse : standardErrorOf sqrtF [a] [b] = 0 := by
      simp [standardErrorOf, hstdA, hstdB, hsqrt]
    have hts : tStatisticOf sqrtF [a] [b] (meanQ [a]) (meanQ [b]) = 0 := by
      simp [tStatisticOf, hse]
    refine ⟨hstdA, hstdB, hse, hts,
      tTestCore sqrtF expF powF [a] [b] (meanQ [a]) (meanQ [b]),
      ?_, ?_, ?_⟩
    · rfl
    · simp [tTestCore, hts, calculatePValue_zero, toFixedQ_one]
    · simp [tTestCore, hts, calculatePValue_zero]
      norm_num

/-- Witness for C7 with a concrete sqrt model and samples. -/
theorem tTest_degenerate_inputs_witness :
    ∃ r, tTest (fun _ => 0) id (fun x _ => x) [1, 2] [1, 2] = .ok r ∧
      r.difference = 0 ∧ r.pValue = 1 ∧ r.significant = false :=
  (tTest_degenerate_inputs (fun _ => 0) id (fun x _ => x) rfl).1
    [1, 2] (by decide)

/-- `takeWhile` over a list all of whose members satisfy the
predicate, followed by a failing element, takes exactly that list. -/
theorem takeWhile_append_all (p : Char → Bool) (l : List Char)
    (x : Char) (t : List Char)
    (hl : ∀ c ∈ l, p c = true) (hx : p x = false) :
    (l ++ x :: t).takeWhile p = l := by
  induction l with
  | nil => simp [List.takeWhile_cons, hx]
  | cons c cs ih =>
    have hc : p c = true := hl c (by simp)
    simp [List.takeWhile_cons, hc,
      ih (fun d hd => hl d (by simp [hd]))]

/-- The matching `dropWhile` leaves the failing element onward. -/
theorem dropWhile_append_all (p : Char → Bool) (l : List Char)
    (x : Char) (t : List Char)
    (hl : ∀ c ∈ l, p c = true) (hx : p x = false) :
    (l ++ x :: t).dropWhile p = x :: t := by
  induction l with
  | nil => simp [List.dropWhile_cons, hx]
  | cons c cs ih =>
    have hc : p c = true := hl c (by simp)
    simp [List.dropWhile_cons, hc,
      ih (fun d hd => hl d (by simp [hd]))]

/-- The scanner maps the empty template to the empty output. -/
theorem renderAux_nil (inputs : List (String × String)) :
    renderAux inputs [] = [] := by
  simp [renderAux]

/-- The scanner replaces a well-formed token after a brace-free
prefix: the prefix is copied, the token becomes the input value
(empty when unmatched), and scanning continues on the remainder. -/
theorem renderAux_token (inputs : List (String × String)) :
    ∀ (pd : List Char), (∀ c ∈ pd, c ≠ lbrace) →
    ∀ (nd : List Char), nd ≠ [] → (∀ c ∈ nd, isWordChar c = true) →
    ∀ (sd : List Char),
      renderAux inputs
        (pd ++ lbrace :: lbrace :: (nd ++ rbrace :: rbrace :: sd)) =
      pd ++ (lookupInput inputs ⟨nd⟩).data ++ renderAux inputs sd := by
  intro pd
  induction pd with
  | nil =>
    intro _ nd hnd hw sd
    have hrb : isWordChar rbrace = false := by decide
    have htake := takeWhile_append_all isWordChar nd rbrace
      (rbrace :: sd) hw hrb
    have hdrop := dropWhile_append_all isWordChar nd rbrace
      (rbrace :: sd) hw hrb
    rw [List.nil_append, renderAux.eq_def]
    simp [htake, hdrop, hnd]
  | cons c cs ih =>
    intro hp nd hnd hw sd
    have hc : c ≠ lbrace := hp c (by simp)
    rw [List.cons_append, renderAux.eq_def]
    simp only [if_neg hc]
    rw [ih (fun d hd => hp d (by simp [hd])) nd hnd hw sd]
    simp

/-- C8: template rendering: a `\x7b\x7bname\x7d\x7d` token (word
characters only) is replaced by the corresponding input value, and by
the empty string when the name is unmatched (`lookupInput` defaults
to `""`); in particular rendering `"Hi \x7b\x7bx\x7d\x7d"` with no
inputs gives `"Hi "` and with `x = "Bob"` gives `"Hi Bob"`. -/
theorem template_rendering :
    (∀ (inputs : List (String × String)) (p name suffix : String),
      (∀ c ∈ p.data, c ≠ lbrace) →
      name.data ≠ [] →
      (∀ c ∈ name.data, isWordChar c = true) →
      replaceVariables
          (p ++ "\x7b\x7b" ++ name ++ "\x7d\x7d" ++ suffix) inputs =
        p ++ lookupInput inputs name ++ replaceVariables suffix inputs) ∧
    replaceVariables "Hi \x7b\x7bx\x7d\x7d" [] = "Hi " ∧
    replaceVariables "Hi \x7b\x7bx\x7d\x7d" [("x", "Bob")] = "Hi Bob" := by
  have hgen : ∀ (inputs : List (String × String)) (p name suffix : String),
      (∀ c ∈ p.data, c ≠ lbrace) →
      name.data ≠ [] →
      (∀ c ∈ name.data, isWordChar c = true) →
      replaceVariables
          (p ++ "\x7b\x7b" ++ name ++ "\x7d\x7d" ++ suffix) inputs =
        p ++ lookupInput inputs name ++ replaceVariables suffix inputs := by
    intro inputs p name suffix hp hn hw
    apply String.ext
    simp only [replaceVariables, String.data_append]
    have hsplit : p.data ++ "\x7b\x7b".data ++ name.data ++
        "\x7d\x7d".data ++ suffix.data =
        p.data ++ lbrace :: lbrace ::
          (name.data ++ rbrace :: rbrace :: suffix.data) := by
      simp [lbrace, rbrace]
    rw [hsplit, renderAux_token inputs p.data hp name.data hn hw
      suffix.data]
  refine ⟨hgen, ?_, ?_⟩
  · have h1 : ("Hi \x7b\x7bx\x7d\x7d" : String) =
        "Hi " ++ "\x7b\x7b" ++ "x" ++ "\x7d\x7d" ++ "" := by decide
    rw [h1, hgen [] "Hi " "x" "" (by decide) (by decide) (by decide)]
    rw [show replaceVariables "" ([] : List (String × String)) = "" from
      String.ext (renderAux_nil [])]
    decide
  · have h1 : ("Hi \x7b\x7bx\x7d\x7d" : String) =
        "Hi " ++ "\x7b\x7b" ++ "x" ++ "\x7d\x7d" ++ "" := by decide
    rw [h1, hgen [("x", "Bob")] "Hi " "x" "" (by decide) (by decide)
      (by decide)]
    rw [show replaceVariables "" ([("x", "Bob")] : List (String × String)) =
        "" from String.ext (renderAux_nil [("x", "Bob")])]
    decide

/-- Witness for C8's general token-replacement statement. -/
theorem template_rendering_witness :
    replaceVariables ("a" ++ "\x7b\x7b" ++ "x" ++ "\x7d\x7d" ++ "b") [] =
      "a" ++ lookupInput [] "x" ++ replaceVariables "b" [] :=
  template_rendering.1 [] "a" "x" "b" (by decide) (by decide) (by decide)

/-- C9: the result of `TestRunner.run` is independent of its third
argument: every case is executed against `promptA` only, so two runs
differing only in the third prompt string produce identical per-case
results, summaries and progress events. -/
theorem run_ignores_third_argument (opts : TestRunnerOptions)
    (provider : ChatRequest → Nat → Except String ChatResponse)
    (dur : ChatRequest → Nat → Nat) (dataset : List TestCase)
    (promptA p p2 : String) (order : List Nat) :
    run opts provider dur dataset promptA p order =
    run opts provider dur dataset promptA p2 order := rfl

/-- C10: `tTest` is partial on empty samples: it errors (the
library mean refuses an empty data set) whenever either sample is
empty — which `compareVersions` produces whenever a version has zero
successful cases, so the comparison bundle fails — and returns a
result for every pair of non-empty samples. -/
theorem tTest_partial_on_empty (sqrtF expF : ℚ → ℚ)
    (powF : ℚ → ℚ → ℚ) :
    (∀ sB : List ℚ, ∃ msg, tTest sqrtF expF powF [] sB = .error msg) ∧
    (∀ sA : List ℚ, ∃ msg, tTest sqrtF expF powF sA [] = .error msg) ∧
    (∀ sA sB : List ℚ, sA ≠ [] → sB ≠ [] →
      ∃ r, tTest sqrtF expF powF sA sB = .ok r) ∧
    (∀ vA vB : VersionResult, vA.testCases.filter (·.success) = [] →
      ∃ msg, compareVersions sqrtF expF powF vA vB = .error msg) ∧
    (∀ vA vB : VersionResult, vB.testCases.filter (·.success) = [] →
      ∃ msg, compareVersions sqrtF expF powF vA vB = .error msg) := by
  have h1 : ∀ sB : List ℚ, tTest sqrtF expF powF [] sB =
      .error "mean requires at least one data point" := fun _ => rfl
  have h2 : ∀ sA : List ℚ, ∃ msg,
      tTest sqrtF expF powF sA [] = .error msg := by
    intro sA
    cases hm : ssMean sA with
    | error e =>
      exact ⟨e, by simp only [tTest, hm]; rfl⟩
    | ok m =>
      exact ⟨"mean requires at least one data point",
        by simp only [tTest, hm]; rfl⟩
  refine ⟨fun sB => ⟨_, h1 sB⟩, h2, ?_, ?_, ?_⟩
  · intro sA sB hA hB
    have hmA : ssMean sA = .ok (meanQ sA) := by
      simp [ssMean, List.isEmpty_iff, hA]
    have hmB : ssMean sB = .ok (meanQ sB) := by
      simp [ssMean, List.isEmpty_iff, hB]
    exact ⟨_, by simp only [tTest, hmA, hmB]; rfl⟩
  · intro vA vB hA
    refine ⟨"mean requires at least one data point", ?_⟩
    simp only [compareVersions, hA, List.map_nil, h1]
    rfl
  · intro vA vB hB
    obtain ⟨msg, hmsg⟩ := h2 ((vA.testCases.filter (·.success)).map
      (fun tc => (tc.latency : ℚ)))
    refine ⟨msg, ?_⟩
    simp only [compareVersions, hB, List.map_nil, hmsg]
    rfl

/-- Witness for C10's non-empty-samples and empty-successes parts. -/
theorem tTest_partial_on_empty_witness :
    (∃ r, tTest (fun _ => 0) id (fun x _ => x) [1] [2] = .ok r) ∧
    (∃ msg, compareVersions (fun _ => 0) id (fun x _ => x)
      ⟨[], ⟨0, 0, 0, 0, 0, 0, 0⟩⟩ ⟨[], ⟨0, 0, 0, 0, 0, 0, 0⟩⟩ =
        .error msg) :=
  ⟨(tTest_partial_on_empty (fun _ => 0) id (fun x _ => x)).2.2.1
      [1] [2] (by decide) (by decide),
   (tTest_partial_on_empty (fun _ => 0) id (fun x _ => x)).2.2.2.1
      ⟨[], ⟨0, 0, 0, 0, 0, 0, 0⟩⟩ ⟨[], ⟨0, 0, 0, 0, 0, 0, 0⟩⟩ rfl⟩

end PromptVcs
